import Mathlib

/-!
Shallow embedding of `src/main.py`, the per-ticker net-cash screening
pipeline: character-level helpers mirroring the Python string operations,
the fuzzy balance-sheet field resolution, the financial snapshot
computation of `get_financial_data`, the row builder of
`process_ticker_wrapper`, and the order-collecting batch step.  Network
effects are modelled by explicit oracle inputs: an `Attempt` per scrape
try and a `Provider` for the yfinance calls.
-/

/-- Python `str.strip()` on the character list: drop whitespace at both ends. -/
def pyStrip (l : List Char) : List Char :=
  ((l.dropWhile Char.isWhitespace).reverse.dropWhile Char.isWhitespace).reverse

/-- Python `str.lower()` (ASCII case folding, as applied to field labels). -/
def pyLower (l : List Char) : List Char := l.map Char.toLower

/-- `str(k).strip().lower()` from `get_financial_data` (main.py line 193):
the normalized form of a statement field label. -/
def normLabel (s : String) : List Char := pyLower (pyStrip s.data)

/-- Python substring membership `needle in hay` on character lists. -/
def hasSub (n : List Char) : List Char → Bool
  | [] => n.isEmpty
  | c :: rest => n.isPrefixOf (c :: rest) || hasSub n rest

/-- Python `needle in hay` for strings. -/
def containsSub (needle hay : String) : Bool := hasSub needle.data hay.data

/-- main.py line 23. -/
def FINANCE_KEYWORDS : List String := ["銀行業", "保険業", "証券", "商品先物", "金融業"]

/-- main.py line 375: `any(k in industry_jp for k in FINANCE_KEYWORDS)`. -/
def is_exclude_fin (industry_jp : String) : Bool :=
  FINANCE_KEYWORDS.any (fun k => containsSub k industry_jp)

/-- main.py lines 33-40, the closed ordered sector vocabulary. -/
def TSE_SECTORS : List String :=
  ["水産・農林業", "鉱業", "建設業", "食料品", "繊維製品", "パルプ・紙", "化学",
   "医薬品", "石油・石炭製品", "ゴム製品", "ガラス・土石製品", "鉄鋼", "非鉄金属",
   "金属製品", "機械", "電気機器", "輸送用機器", "精密機器", "その他製品",
   "電気・ガス業", "陸運業", "海運業", "空運業", "倉庫・運輸関連業", "情報・通信業",
   "卸売業", "小売業", "銀行業", "証券、商品先物取引業", "保険業",
   "その他金融業", "不動産業", "サービス業"]

/-- main.py lines 43-52, the output schema (21 columns). -/
def HEADER : List String :=
  ["銘柄名", "業種",
   "NC比率", "厳格NC比率", "NC1倍超", "厳格NC1倍超",
   "実質PER", "配当利回り", "配当性向",
   "金融除外フラグ", "時価総額(億)", "小型株フラグ",
   "棚卸資産警告", "棚卸資産比率",
   "流動資産(億)", "投資有価証券(億)", "負債合計(億)",
   "ネットキャッシュ(億)", "厳格NC(億)", "棚卸資産(億)",
   "営業利益(億)"]

/-- main.py line 21: `500 * 100_000_000`. -/
def MARKET_CAP_THRESHOLD : ℚ := 500 * 100000000

/-- main.py line 22: `0.3`. -/
def INVENTORY_RATIO_THRESHOLD : ℚ := 3 / 10

/-- A value of a pandas statement column: either NaN or a number. -/
inductive Cell where
  | nan : Cell
  | val (q : ℚ) : Cell
deriving DecidableEq

/-- A statement's latest column: original field labels paired with values. -/
abbrev StmtCol := List (String × Cell)

/-- The dict comprehension `{str(k).strip().lower(): k for k in latest_bs.index}`
(main.py line 193) as a lookup: a later index entry overrides an earlier one
with the same normalized label, so the recursion prefers the tail. -/
def bs_idx_map (labels : List String) (q : List Char) : Option String :=
  match labels with
  | [] => none
  | k :: rest =>
    match bs_idx_map rest q with
    | some r => some r
    | none => if q = normLabel k then some k else none

/-- `latest_bs[real_key]`: the value at an original label (a label resolved via
`bs_idx_map` is always present in the column). -/
def lookupCell (t : StmtCol) (k : String) : Option Cell :=
  match t with
  | [] => none
  | p :: rest => if p.1 = k then some p.2 else lookupCell rest k

/-- NaN-aware extraction (`if val != val: return None`, main.py line 203). -/
def cellVal : Cell → Option ℚ
  | Cell.nan => none
  | Cell.val q => some q

/-- `get_val_bs` (main.py lines 195-206): probe the alias list in order against
the normalized-label map; on a hit return the value (None when NaN), trying no
further alias; on a miss fall through to the next alias. -/
def get_val_bs (t : StmtCol) : List String → Option ℚ
  | [] => none
  | k :: rest =>
    match bs_idx_map (t.map Prod.fst) (normLabel k) with
    | some real_key => (lookupCell t real_key).bind cellVal
    | none => get_val_bs t rest

/-- `get_val_pl` (main.py lines 233-243): like `get_val_bs` but with default 0
(also on NaN). -/
def get_val_pl (t : StmtCol) : List String → ℚ
  | [] => 0
  | k :: rest =>
    match bs_idx_map (t.map Prod.fst) (normLabel k) with
    | some real_key =>
      match (lookupCell t real_key).bind cellVal with
      | some q => q
      | none => 0
    | none => get_val_pl t rest

/-- The dict returned by `get_financial_data` on the OK path
(main.py lines 305-323), keys kept as fields. -/
structure Snapshot where
  market_cap : ℚ
  total_current_assets : ℚ
  total_liabilities : ℚ
  inventory : ℚ
  investment_securities : ℚ
  net_cash : ℚ
  net_cash_strict : ℚ
  nc_ratio : ℚ
  nc_ratio_strict : ℚ
  inv_ratio : ℚ
  fallback_name : Option String
  cn_per : Option ℚ
  div_yield : ℚ
  payout_ratio : ℚ
  operating_income : ℚ
deriving DecidableEq

/-- The possible dict returns of `get_financial_data` (Python `None` is modelled
separately as `Option.none` at the call sites): the probe-failure dict
`{'status': 'DATA_MISSING'}` (line 146), the required-field-missing dict
(lines 267-271), `{'status': 'ERROR'}` (line 327), and the OK dict. -/
inductive FinResult where
  | probeMissing : FinResult
  | dataMissing (market_cap : Option ℚ) (fallback_name : Option String) : FinResult
  | errorResult : FinResult
  | okResult (snap : Snapshot) : FinResult
deriving DecidableEq

/-- `fin_data.get('fallback_name')` (main.py line 366): dicts without the key
yield None. -/
def FinResult.fallbackOf : FinResult → Option String
  | FinResult.dataMissing _ fb => fb
  | FinResult.okResult s => s.fallback_name
  | _ => none

/-- `fin_data and fin_data['status'] == 'OK'` (main.py line 374). -/
def statusOkB : Option FinResult → Bool
  | some (FinResult.okResult _) => true
  | _ => false

/-- One run's yfinance responses for a ticker, as the pipeline consumes them:
`probeOk` is the `fast_info.currency` probe (line 144) succeeding; `market_cap`
and `current_price` are the outcome of the 8-attempt retry loop (None when the
value was never obtained); `longName` is `info.get('longName')`; `bs` is the
latest balance-sheet column after the annual→quarterly fallback (None when
both periods are None or empty or the guarded fetch raised); `finRaises`
marks `yf_ticker.financials` raising, which no local handler catches
(line 221); `fin` is the latest income-statement column after its fallback;
`dividendSum` is the trailing-12-month dividend sum, 0 on absence or error
(lines 252-261). -/
structure Provider where
  probeOk : Bool
  market_cap : Option ℚ
  current_price : Option ℚ
  longName : Option String
  bs : Option StmtCol
  finRaises : Bool
  fin : Option StmtCol
  dividendSum : ℚ

/-- The pure computation section of `get_financial_data`
(main.py lines 273-323), floats modelled as rationals. -/
def mkSnapshot (mc : ℚ) (cp : Option ℚ) (tca tl inventory isec oi eps dv : ℚ)
    (fb : Option String) : Snapshot :=
  let net_cash := tca + isec * (7 / 10) - tl
  let net_cash_strict := (tca - inventory) + isec * (7 / 10) - tl
  let nc_r := if mc ≠ 0 then net_cash / mc else 0
  let nc_rs := if mc ≠ 0 then net_cash_strict / mc else 0
  let inv_r := if tca ≠ 0 then inventory / tca else 0
  let op_after_tax := oi * (13 / 20)
  let cn := if 0 < op_after_tax ∧ mc ≠ 0 then
      some ((mc - net_cash_strict) / op_after_tax) else none
  let dy := match cp with
    | some c => if 0 < c then dv / c else 0
    | none => 0
  let pr := if 0 < eps then dv / eps else 0
  { market_cap := mc, total_current_assets := tca, total_liabilities := tl,
    inventory := inventory, investment_securities := isec,
    net_cash := net_cash, net_cash_strict := net_cash_strict,
    nc_ratio := nc_r, nc_ratio_strict := nc_rs, inv_ratio := inv_r,
    fallback_name := fb, cn_per := cn, div_yield := dy, payout_ratio := pr,
    operating_income := oi }

/-- `get_financial_data` (main.py lines 134-327) over the provider oracle.
`Option.none` models the bare Python `return None` at line 186, taken when
the balance sheet is None or empty after the period fallback. -/
def get_financial_data (p : Provider) (jp_name_failed : Bool) : Option FinResult :=
  if p.probeOk = false then some FinResult.probeMissing
  else
    let fb := if jp_name_failed then p.longName else none
    match p.bs with
    | none => none
    | some latest_bs =>
      if p.finRaises then some FinResult.errorResult
      else
        let oi := match p.fin with
          | none => 0
          | some latest_fin => get_val_pl latest_fin ["Operating Income", "Operating Profit"]
        let eps := match p.fin with
          | none => 0
          | some latest_fin => get_val_pl latest_fin ["Basic EPS"]
        match p.market_cap,
              get_val_bs latest_bs ["Total Current Assets", "Current Assets"],
              get_val_bs latest_bs
                ["Total Liabilities Net Minority Interest", "Total Liabilities", "Total Liab"] with
        | some mc, some tca, some tl =>
          some (FinResult.okResult (mkSnapshot mc p.current_price tca tl
            ((get_val_bs latest_bs ["Inventory"]).getD 0)
            ((get_val_bs latest_bs
              ["Investments", "Other Short Term Investments",
               "Long Term Investments", "Other Investments"]).getD 0)
            oi eps p.dividendSum fb))
        | _, _, _ => some (FinResult.dataMissing p.market_cap fb)

/-- One scrape attempt: an exception anywhere in the fetch/parse `try` body, or
a parsed page giving the `<title>` text (when present) and the raw HTML. -/
inductive Attempt where
  | fail : Attempt
  | page (title : Option String) (html : String) : Attempt

/-- Name and sector extraction from a fetched page (main.py lines 106-121). -/
def parsePage (title : Option String) (html : String) : Option String × String :=
  let title_text := title.getD ""
  let name : Option String :=
    if title_text.data.contains '【' then
      some ⟨title_text.data.takeWhile (fun c => c ≠ '【')⟩
    else if !title_text.data.isEmpty then
      some ⟨title_text.data.takeWhile (fun c => c ≠ '：')⟩
    else none
  let industry := (TSE_SECTORS.find? (fun c => containsSub c html)).getD "取得失敗"
  (match name with
   | none => none
   | some n => if n.data.isEmpty then none else some ⟨pyStrip n.data⟩,
   industry)

/-- `get_yahoo_jp_info` (main.py lines 87-132): up to three attempts; the first
fetched page is parsed and returned; when all three raise, the failure pair. -/
def get_yahoo_jp_info (a0 a1 a2 : Attempt) : Option String × String :=
  match a0 with
  | Attempt.page t h => parsePage t h
  | Attempt.fail =>
    match a1 with
    | Attempt.page t h => parsePage t h
    | Attempt.fail =>
      match a2 with
      | Attempt.page t h => parsePage t h
      | Attempt.fail => (none, "取得失敗")

/-- Python truthiness of an optional string: None and "" are falsy. -/
def pyTruthyStr : Option String → Bool
  | none => false
  | some s => !s.data.isEmpty

/-- The three-tier name merge (main.py lines 365-369): scrape name, else
provider fallback name, else the sentinel. -/
def resolveName (name_jp fb : Option String) : String :=
  if pyTruthyStr name_jp then name_jp.getD ""
  else if pyTruthyStr fb then fb.getD ""
  else "取得失敗"

/-- Round half to even at integer scale, Python's `round` tie rule. -/
def roundHalfEven (q : ℚ) : ℤ :=
  if q - (⌊q⌋ : ℚ) < 1 / 2 then ⌊q⌋
  else if 1 / 2 < q - (⌊q⌋ : ℚ) then ⌊q⌋ + 1
  else if ⌊q⌋ % 2 = 0 then ⌊q⌋ else ⌊q⌋ + 1

/-- Python `round(x, n)` on the rational model of the float. -/
def pyRound (n : ℕ) (q : ℚ) : ℚ := (roundHalfEven (q * 10 ^ n) : ℚ) / 10 ^ n

/-- `to_oku` (main.py line 382). -/
def to_oku : ℚ := 100000000

/-- A spreadsheet cell of the result row. -/
inductive RVal where
  | s (v : String)
  | q (v : ℚ)
  | b (v : Bool)
deriving DecidableEq

/-- Lines 363-419 of main.py: the 21-cell `row_data`, filled from the merged
name, the sector and the financial result.  Every non-OK result, the Python
`None` included, takes the else branch (lines 417-419). -/
def buildRow (final_name industry_jp : String) (fin_data : Option FinResult) : List RVal :=
  match fin_data with
  | some (FinResult.okResult d) =>
    [RVal.s final_name, RVal.s industry_jp,
     RVal.q (pyRound 2 d.nc_ratio), RVal.q (pyRound 2 d.nc_ratio_strict),
     RVal.b (decide (1 ≤ d.nc_ratio)), RVal.b (decide (1 ≤ d.nc_ratio_strict)),
     (match d.cn_per with
      | some v => RVal.q (pyRound 1 v)
      | none => RVal.s "-"),
     RVal.q d.div_yield, RVal.q d.payout_ratio,
     RVal.b (is_exclude_fin industry_jp),
     RVal.q (pyRound 1 (d.market_cap / to_oku)),
     RVal.b (decide (d.market_cap ≤ MARKET_CAP_THRESHOLD)),
     RVal.b (decide (INVENTORY_RATIO_THRESHOLD ≤ d.inv_ratio)),
     RVal.q d.inv_ratio,
     RVal.q (pyRound 1 (d.total_current_assets / to_oku)),
     RVal.q (pyRound 1 (d.investment_securities / to_oku)),
     RVal.q (pyRound 1 (d.total_liabilities / to_oku)),
     RVal.q (pyRound 1 (d.net_cash / to_oku)),
     RVal.q (pyRound 1 (d.net_cash_strict / to_oku)),
     RVal.q (pyRound 1 (d.inventory / to_oku)),
     RVal.q (pyRound 1 (d.operating_income / to_oku))]
  | _ =>
    RVal.s (if final_name ≠ "取得失敗" then final_name else "データ取得失敗") ::
      RVal.s industry_jp :: RVal.s "ERROR/MISSING" :: List.replicate 18 (RVal.s "")

/-- Lines 341-343 and 352-354 of main.py: strip, then drop a trailing ".0". -/
def normalizeCode (code_raw : String) : List Char :=
  let t := pyStrip code_raw.data
  if ['.', '0'].isSuffixOf t then t.take (t.length - 2) else t

/-- `process_ticker_wrapper` (main.py lines 329-426) with the module-level
scraping flag made explicit and the network modelled by the scrape attempts
and the provider. -/
def process_ticker_wrapper (scraping : Bool) (code_raw : String)
    (a0 a1 a2 : Attempt) (p : Provider) : List RVal :=
  if scraping then
    if (normalizeCode code_raw).isEmpty then List.replicate HEADER.length (RVal.s "")
    else
      let nj := get_yahoo_jp_info a0 a1 a2
      let fin_data := get_financial_data p nj.1.isNone
      let final_name := resolveName nj.1 (fin_data.bind FinResult.fallbackOf)
      buildRow final_name nj.2 fin_data
  else
    if (normalizeCode code_raw).isEmpty then
      List.replicate (HEADER.length - 2) (RVal.s "")
    else
      let fin_data := get_financial_data p true
      let final_name := resolveName none (fin_data.bind FinResult.fallbackOf)
      (buildRow final_name "-" fin_data).drop 2

/-- The ordered collection of `executor.map` (main.py lines 483-485): worker
completions arrive as (input index, result) pairs in an arbitrary order, and
the scheduler reads off the result at each input position in turn. -/
def gatherByIndex {ρ : Type} (n : ℕ) (completed : List (ℕ × ρ)) : List (Option ρ) :=
  (List.range n).map (fun i => (completed.find? (fun pr => pr.1 == i)).map Prod.snd)

/-! ## Helper lemmas -/

/-- `hasSub` decides list infixhood, i.e. Python's substring `in`. -/
theorem hasSub_iff_infix (n : List Char) : ∀ hay : List Char,
    hasSub n hay = true ↔ n <:+: hay := by
  intro hay
  induction hay with
  | nil => simp [hasSub, List.isEmpty_iff, List.infix_nil]
  | cons c rest ih =>
    rw [hasSub, Bool.or_eq_true, List.infix_cons_iff, ih, List.isPrefixOf_iff_prefix]

/-- In a pair list with distinct keys, a key determines its value. -/
theorem nodup_keys_val_eq {α β : Type} :
    ∀ (l : List (α × β)), (l.map Prod.fst).Nodup →
      ∀ {a : α} {b c : β}, (a, b) ∈ l → (a, c) ∈ l → b = c := by
  intro l
  induction l with
  | nil => simp
  | cons p rest ih =>
    intro hnd a b c hb hc
    simp only [List.map_cons, List.nodup_cons] at hnd
    rcases List.mem_cons.mp hb with hb | hb <;> rcases List.mem_cons.mp hc with hc | hc
    · exact (Prod.ext_iff.mp (hb.trans hc.symm)).2
    · exact absurd (List.mem_map.mpr ⟨(a, c), hc, by rw [← hb]⟩) hnd.1
    · exact absurd (List.mem_map.mpr ⟨(a, b), hb, by rw [← hc]⟩) hnd.1
    · exact ih hnd.2 hb hc

/-! ## Claim theorems -/

/-- Claim C8: when all three scrape attempts of `get_yahoo_jp_info` fail, the
classification resolver raises nothing past its boundary and returns an absent
display name together with the literal unresolved sentinel sector. -/
theorem scrape_failure_returns_sentinel :
    get_yahoo_jp_info Attempt.fail Attempt.fail Attempt.fail = (none, "取得失敗") := rfl

/-- A provider whose existence probe succeeds but whose balance sheet is empty
after both period fallbacks. -/
def emptyBsProvider : Provider :=
  { probeOk := true, market_cap := some 800, current_price := some 100,
    longName := none, bs := none, finRaises := false, fin := none, dividendSum := 0 }

/-- Claim C2, counterexample: a ticker passing the existence probe whose
balance sheet is empty makes `get_financial_data` return the bare Python
`None` — an outcome tagged with none of the three statuses. -/
theorem fin_result_none_outcome :
    get_financial_data emptyBsProvider false = none ∧
      ∀ r : FinResult, get_financial_data emptyBsProvider false ≠ some r :=
  ⟨rfl, fun _ h => Option.noConfusion h⟩

/-- Claim C2 (amended): past the probe, `get_financial_data` returns either a
dict tagged with one of the three statuses or the bare Python `None`, and the
`None` outcome occurs exactly when the probe passed and the balance sheet is
None or empty after the annual→quarterly fallback. -/
theorem fin_result_outcome_characterization (p : Provider) (jp : Bool) :
    get_financial_data p jp = none ↔ p.probeOk = true ∧ p.bs = none := by
  obtain ⟨pr, mc, cp, ln, bs, fr, fin, dv⟩ := p
  cases pr <;> cases bs <;> cases fr <;> simp [get_financial_data] <;> split <;> simp

/-- Claim C6: the finance-exclusion flag is true iff the sector string contains
one of the configured keyword substrings; it is false on the unresolved
sentinel sector; and every OK output row carries exactly this flag in the
金融除外フラグ column. -/
theorem finance_excluded_iff_keyword :
    (∀ sector : String, is_exclude_fin sector = true ↔
      ∃ k ∈ FINANCE_KEYWORDS, k.data <:+: sector.data) ∧
    is_exclude_fin "取得失敗" = false ∧
    ∀ (nm sector : String) (s : Snapshot),
      (buildRow nm sector (some (FinResult.okResult s)))[9]?
        = some (RVal.b (is_exclude_fin sector)) := by
  refine ⟨fun sector => ?_, by decide, fun nm sector s => rfl⟩
  simp only [is_exclude_fin, List.any_eq_true, containsSub, hasSub_iff_infix]

/-- Claim C10: a raw code that is empty after trimming and ".0"-removal yields
a row of empty strings of the configured width (21 columns with scraping on,
19 with it off), identical for every scrape attempt and provider answer —
no network input is consulted. -/
theorem blank_code_returns_empty_row (code_raw : String)
    (h : normalizeCode code_raw = []) :
    (∀ a0 a1 a2 p, process_ticker_wrapper true code_raw a0 a1 a2 p
        = List.replicate 21 (RVal.s "")) ∧
    (∀ a0 a1 a2 p, process_ticker_wrapper false code_raw a0 a1 a2 p
        = List.replicate 19 (RVal.s "")) := by
  refine ⟨fun a0 a1 a2 p => ?_, fun a0 a1 a2 p => ?_⟩
  · unfold process_ticker_wrapper
    rw [h]
    rfl
  · unfold process_ticker_wrapper
    rw [h]
    rfl

/-- Witness for C10 at the concrete whitespace-only raw code "  ". -/
theorem blank_code_returns_empty_row_inst :
    normalizeCode "  " = [] ∧
      process_ticker_wrapper false "  " Attempt.fail Attempt.fail Attempt.fail emptyBsProvider
        = List.replicate 19 (RVal.s "") :=
  ⟨by decide, (blank_code_returns_empty_row "  " (by decide)).2
      Attempt.fail Attempt.fail Attempt.fail emptyBsProvider⟩

/-- Claim C9: with the scraping flag off the sector carried into derivation is
the placeholder "-", so no output row carries a true finance-exclusion flag:
the cell at the flag position (index 7 of the shortened row) is the boolean
false on OK rows and the empty filler string on all other rows. -/
theorem finance_flag_false_when_scraping_off (code_raw : String)
    (a0 a1 a2 : Attempt) (p : Provider) :
    (process_ticker_wrapper false code_raw a0 a1 a2 p)[7]? = some (RVal.b false) ∨
    (process_ticker_wrapper false code_raw a0 a1 a2 p)[7]? = some (RVal.s "") := by
  have hw : process_ticker_wrapper false code_raw a0 a1 a2 p
      = if (normalizeCode code_raw).isEmpty then
          List.replicate (HEADER.length - 2) (RVal.s "")
        else
          (buildRow (resolveName none ((get_financial_data p true).bind FinResult.fallbackOf))
            "-" (get_financial_data p true)).drop 2 := rfl
  rw [hw]
  by_cases he : (normalizeCode code_raw).isEmpty
  · rw [if_pos he]
    right
    rfl
  · rw [if_neg he]
    cases hf : get_financial_data p true with
    | none => right; rfl
    | some r =>
      cases r with
      | okResult s =>
        left
        have hfin : is_exclude_fin "-" = false := by decide
        show some (RVal.b (is_exclude_fin "-")) = some (RVal.b false)
        rw [hfin]
      | probeMissing => right; rfl
      | dataMissing mc fb => right; rfl
      | errorResult => right; rfl

/-- The spec's §8 example inputs as provider answers: currentAssets 1000,
liabilities 600, investmentSecurities 200, marketCap 800, no income statement,
no dividends. -/
def exProvider : Provider :=
  { probeOk := true, market_cap := some 800, current_price := some 100,
    longName := none, finRaises := false, fin := none, dividendSum := 0,
    bs := some [("Total Current Assets", Cell.val 1000),
                ("Total Liabilities", Cell.val 600),
                ("Investments", Cell.val 200)] }

/-- The snapshot `get_financial_data` computes for `exProvider`. -/
def exSnap : Snapshot := mkSnapshot 800 (some 100) 1000 600 0 200 0 0 0 none

/-- Inversion: every OK dict of `get_financial_data` is an application of the
computation section `mkSnapshot`, with the fallback name taken from the
provider only when the scrape name had failed. -/
theorem get_ok_shape (p : Provider) (jp : Bool) (s : Snapshot)
    (h : get_financial_data p jp = some (FinResult.okResult s)) :
    ∃ mc cp tca tl inv isec oi eps dv,
      s = mkSnapshot mc cp tca tl inv isec oi eps dv
            (if jp then p.longName else none) := by
  simp only [get_financial_data] at h
  split at h
  · simp at h
  · split at h
    · simp at h
    · split at h
      · simp at h
      · split at h
        · simp only [Option.some.injEq, FinResult.okResult.injEq] at h
          exact ⟨_, _, _, _, _, _, _, _, _, h.symm⟩
        · simp at h

/-- Field computations of the snapshot builder, as stated over its own
fields. -/
theorem mkSnapshot_fields (mc : ℚ) (cp : Option ℚ) (tca tl inv isec oi eps dv : ℚ)
    (fb : Option String) :
    (mkSnapshot mc cp tca tl inv isec oi eps dv fb).market_cap = mc ∧
    (mkSnapshot mc cp tca tl inv isec oi eps dv fb).total_current_assets = tca ∧
    (mkSnapshot mc cp tca tl inv isec oi eps dv fb).total_liabilities = tl ∧
    (mkSnapshot mc cp tca tl inv isec oi eps dv fb).investment_securities = isec ∧
    (mkSnapshot mc cp tca tl inv isec oi eps dv fb).net_cash = tca + isec * (7 / 10) - tl ∧
    (mkSnapshot mc cp tca tl inv isec oi eps dv fb).nc_ratio
      = (if mc ≠ 0 then (tca + isec * (7 / 10) - tl) / mc else 0) ∧
    (mkSnapshot mc cp tca tl inv isec oi eps dv fb).operating_income = oi ∧
    (mkSnapshot mc cp tca tl inv isec oi eps dv fb).net_cash_strict
      = (tca - inv) + isec * (7 / 10) - tl ∧
    (mkSnapshot mc cp tca tl inv isec oi eps dv fb).cn_per
      = (if 0 < oi * (13 / 20) ∧ mc ≠ 0 then
          some ((mc - ((tca - inv) + isec * (7 / 10) - tl)) / (oi * (13 / 20))) else none) ∧
    (mkSnapshot mc cp tca tl inv isec oi eps dv fb).fallback_name = fb :=
  ⟨rfl, rfl, rfl, rfl, rfl, rfl, rfl, rfl, rfl, rfl⟩

/-- Claim C1: for every OK snapshot, netCash = currentAssets +
0.7·investmentSecurities − liabilities and ncRatio = netCash / marketCap,
0 when marketCap is 0; and on the spec's example inputs the pipeline computes
netCash = 540, ncRatio = 0.675 (= 27/40) and a false NC≥1 flag (row cell 4). -/
theorem netcash_formula_ok :
    (∀ (p : Provider) (jp : Bool) (s : Snapshot),
        get_financial_data p jp = some (FinResult.okResult s) →
        s.net_cash = s.total_current_assets + (7 / 10) * s.investment_securities
            - s.total_liabilities ∧
        (s.market_cap ≠ 0 → s.nc_ratio = s.net_cash / s.market_cap) ∧
        (s.market_cap = 0 → s.nc_ratio = 0)) ∧
    get_financial_data exProvider false = some (FinResult.okResult exSnap) ∧
    exSnap.net_cash = 540 ∧ exSnap.nc_ratio = 27 / 40 ∧
    (buildRow "n" "-" (some (FinResult.okResult exSnap)))[4]? = some (RVal.b false) := by
  have hmain : ∀ (p : Provider) (jp : Bool) (s : Snapshot),
      get_financial_data p jp = some (FinResult.okResult s) →
      s.net_cash = s.total_current_assets + (7 / 10) * s.investment_securities
          - s.total_liabilities ∧
      (s.market_cap ≠ 0 → s.nc_ratio = s.net_cash / s.market_cap) ∧
      (s.market_cap = 0 → s.nc_ratio = 0) := by
    intro p jp s h
    obtain ⟨mc, cp, tca, tl, inv, isec, oi, eps, dv, rfl⟩ := get_ok_shape p jp s h
    obtain ⟨hmc, htca, htl, hisec, hnc, hncr, -, -, -, -⟩ :=
      mkSnapshot_fields mc cp tca tl inv isec oi eps dv (if jp then p.longName else none)
    refine ⟨?_, ?_, ?_⟩
    · rw [hnc, htca, htl, hisec]; ring
    · intro hne
      rw [hmc] at hne
      rw [hncr, hnc, hmc, if_pos hne]
    · intro hz
      rw [hmc] at hz
      rw [hncr, hz]
      simp
  have hex : get_financial_data exProvider false = some (FinResult.okResult exSnap) := rfl
  have h540 : exSnap.net_cash = 540 := by
    show (1000 : ℚ) + 200 * (7 / 10) - 600 = 540
    norm_num
  have hratio : exSnap.nc_ratio = 27 / 40 := by
    show (if (800 : ℚ) ≠ 0 then ((1000 : ℚ) + 200 * (7 / 10) - 600) / 800 else 0) = 27 / 40
    rw [if_pos (by norm_num : (800 : ℚ) ≠ 0)]
    norm_num
  have hflag : decide (1 ≤ exSnap.nc_ratio) = false := by
    rw [decide_eq_false_iff_not, hratio]
    norm_num
  refine ⟨hmain, hex, h540, hratio, ?_⟩
  show some (RVal.b (decide (1 ≤ exSnap.nc_ratio))) = some (RVal.b false)
  rw [hflag]

/-- Witness for C1 at the spec's example provider. -/
theorem netcash_formula_ok_inst :
    exSnap.net_cash = exSnap.total_current_assets
        + (7 / 10) * exSnap.investment_securities - exSnap.total_liabilities ∧
    exSnap.nc_ratio = exSnap.net_cash / exSnap.market_cap :=
  ⟨(netcash_formula_ok.1 exProvider false exSnap rfl).1,
   (netcash_formula_ok.1 exProvider false exSnap rfl).2.1
     (by norm_num [exSnap, mkSnapshot])⟩

/-- Claim C3: for every OK snapshot, cnPer is present iff the after-tax
operating income 0.65·operatingIncome is positive and marketCap is nonzero,
in which case it equals (marketCap − netCashStrict)/(0.65·operatingIncome);
whenever operatingIncome ≤ 0 it is the undefined sentinel — rendered "-" at
the 実質PER cell of the output row — never 0. -/
theorem cn_per_defined_iff (p : Provider) (jp : Bool) (s : Snapshot)
    (h : get_financial_data p jp = some (FinResult.okResult s)) :
    (s.cn_per.isSome = true ↔ 0 < (13 / 20) * s.operating_income ∧ s.market_cap ≠ 0) ∧
    (∀ v, s.cn_per = some v →
        v = (s.market_cap - s.net_cash_strict) / ((13 / 20) * s.operating_income)) ∧
    (s.operating_income ≤ 0 →
        s.cn_per = none ∧
        ∀ nm ind, (buildRow nm ind (some (FinResult.okResult s)))[6]? = some (RVal.s "-")) := by
  obtain ⟨mc, cp, tca, tl, inv, isec, oi, eps, dv, rfl⟩ := get_ok_shape p jp s h
  obtain ⟨hmc, -, -, -, -, -, hoi, hncs, hcn, -⟩ :=
    mkSnapshot_fields mc cp tca tl inv isec oi eps dv (if jp then p.longName else none)
  have hcomm : oi * (13 / 20) = (13 / 20) * oi := mul_comm oi (13 / 20)
  refine ⟨?_, ?_, ?_⟩
  · rw [hcn, hoi, hmc, hcomm]
    by_cases hc : 0 < (13 / 20) * oi ∧ mc ≠ 0
    · rw [if_pos hc]
      simpa using hc
    · rw [if_neg hc]
      simpa using hc
  · intro v hv
    rw [hcn] at hv
    rw [hmc, hncs, hoi]
    by_cases hc : 0 < oi * (13 / 20) ∧ mc ≠ 0
    · rw [if_pos hc] at hv
      rw [← hcomm]
      exact (Option.some_inj.mp hv).symm
    · rw [if_neg hc] at hv
      exact absurd hv (by simp)
  · intro hle
    rw [hoi] at hle
    have hnone : (mkSnapshot mc cp tca tl inv isec oi eps dv
        (if jp then p.longName else none)).cn_per = none := by
      rw [hcn, if_neg]
      intro hc
      have : oi * (13 / 20) ≤ 0 :=
        mul_nonpos_iff.mpr (Or.inr ⟨hle, by norm_num⟩)
      exact absurd hc.1 (not_lt.mpr this)
    refine ⟨hnone, fun nm ind => ?_⟩
    have hbase : (buildRow nm ind (some (FinResult.okResult
        (mkSnapshot mc cp tca tl inv isec oi eps dv
          (if jp then p.longName else none)))))[6]?
        = some (match (mkSnapshot mc cp tca tl inv isec oi eps dv
            (if jp then p.longName else none)).cn_per with
          | some v => RVal.q (pyRound 1 v)
          | none => RVal.s "-") := rfl
    rw [hbase, hnone]

/-- Witness for C3 at the spec's example provider, whose operating income is 0. -/
theorem cn_per_defined_iff_inst :
    exSnap.cn_per = none ∧
      (buildRow "n" "-" (some (FinResult.okResult exSnap)))[6]? = some (RVal.s "-") := by
  have h := (cn_per_defined_iff exProvider false exSnap rfl).2.2
    (by norm_num [exSnap, mkSnapshot])
  exact ⟨h.1, h.2 "n" "-"⟩

/-- A provider for which even the existence probe fails. -/
def probeFailProvider : Provider :=
  { probeOk := false, market_cap := none, current_price := none, longName := none,
    bs := none, finRaises := false, fin := none, dividendSum := 0 }

/-- The fallback long-form name stays absent when the scrape name resolved:
`info.get('longName')` is consulted only under `if jp_name_failed`
(main.py line 169). -/
theorem get_fallback_none (p : Provider) (r : FinResult)
    (h : get_financial_data p false = some r) : r.fallbackOf = none := by
  simp only [get_financial_data] at h
  split at h
  · cases Option.some_inj.mp h; rfl
  · split at h
    · exact absurd h (by simp)
    · split at h
      · cases Option.some_inj.mp h; rfl
      · split at h
        · cases Option.some_inj.mp h
          simp only [FinResult.fallbackOf]
          exact ((mkSnapshot_fields _ _ _ _ _ _ _ _ _ _).2.2.2.2.2.2.2.2.2).trans
            (by simp)
        · cases Option.some_inj.mp h
          simp [FinResult.fallbackOf]

/-- Claim C7, counterexample: with scraping on, all three scrape attempts
failing and the provider probe failing, no name tier yields anything, yet the
output row displays "データ取得失敗" in the name cell instead of the literal
unresolved sentinel "取得失敗" that the three-tier precedence would produce. -/
theorem display_name_sentinel_cex :
    (get_yahoo_jp_info Attempt.fail Attempt.fail Attempt.fail).1 = none ∧
    (get_financial_data probeFailProvider true).bind FinResult.fallbackOf = none ∧
    (process_ticker_wrapper true "7203" Attempt.fail Attempt.fail Attempt.fail
        probeFailProvider)[0]? = some (RVal.s "データ取得失敗") ∧
    "データ取得失敗" ≠ "取得失敗" := by
  refine ⟨rfl, rfl, ?_, by decide⟩
  decide

/-- Claim C7 (amended): the merged display name follows the three-tier
precedence — scrape name if truthy, else provider fallback if truthy, else the
sentinel "取得失敗" — and the provider fallback is absent whenever the scrape
name resolved; the name cell of the row shows the merged name, except that a
non-OK financial result whose merge ended in the sentinel is shown as
"データ取得失敗". -/
theorem display_name_precedence :
    (∀ name_jp fb : Option String,
      (pyTruthyStr name_jp = true → resolveName name_jp fb = name_jp.getD "") ∧
      (pyTruthyStr name_jp = false → pyTruthyStr fb = true →
        resolveName name_jp fb = fb.getD "") ∧
      (pyTruthyStr name_jp = false → pyTruthyStr fb = false →
        resolveName name_jp fb = "取得失敗")) ∧
    (∀ (p : Provider) (r : FinResult), get_financial_data p false = some r →
      r.fallbackOf = none) ∧
    (∀ (fn ind : String) (fd : Option FinResult),
      (buildRow fn ind fd)[0]? = some (RVal.s fn) ∨
      ((buildRow fn ind fd)[0]? = some (RVal.s "データ取得失敗") ∧
        fn = "取得失敗" ∧ statusOkB fd = false)) := by
  refine ⟨fun name_jp fb => ⟨?_, ?_, ?_⟩, get_fallback_none, fun fn ind fd => ?_⟩
  · intro h1
    rw [resolveName, if_pos h1]
  · intro h1 h2
    rw [resolveName, if_neg (by rw [h1]; simp), if_pos h2]
  · intro h1 h2
    rw [resolveName, if_neg (by rw [h1]; simp), if_neg (by rw [h2]; simp)]
  · have hrow : ∀ c : Option FinResult, statusOkB c = false →
        (buildRow fn ind c)[0]?
          = some (RVal.s (if fn ≠ "取得失敗" then fn else "データ取得失敗")) := by
      intro c hc
      match c with
      | none => rfl
      | some FinResult.probeMissing => rfl
      | some (FinResult.dataMissing mc fb) => rfl
      | some FinResult.errorResult => rfl
      | some (FinResult.okResult s) => exact absurd hc (by simp [statusOkB])
    match hsk : statusOkB fd with
    | true =>
      match fd with
      | some (FinResult.okResult s) => exact Or.inl rfl
      | none => exact absurd hsk (by simp [statusOkB])
      | some FinResult.probeMissing => exact absurd hsk (by simp [statusOkB])
      | some (FinResult.dataMissing mc fb) => exact absurd hsk (by simp [statusOkB])
      | some FinResult.errorResult => exact absurd hsk (by simp [statusOkB])
    | false =>
      by_cases hfn : fn = "取得失敗"
      · refine Or.inr ⟨?_, hfn, rfl⟩
        rw [hrow fd hsk, if_neg (by simpa using hfn)]
      · refine Or.inl ?_
        rw [hrow fd hsk, if_pos hfn]

/-- Witness for C7 at concrete names and the probe-failure provider. -/
theorem display_name_precedence_inst :
    resolveName (some "トヨタ自動車") none = "トヨタ自動車" ∧
    resolveName none (some "Toyota Motor") = "Toyota Motor" ∧
    resolveName none none = "取得失敗" ∧
    FinResult.fallbackOf FinResult.probeMissing = none :=
  ⟨(display_name_precedence.1 (some "トヨタ自動車") none).1 (by decide),
   (display_name_precedence.1 none (some "Toyota Motor")).2.1 rfl (by decide),
   (display_name_precedence.1 none none).2.2 rfl rfl,
   display_name_precedence.2.1 probeFailProvider FinResult.probeMissing rfl⟩

/-- Indexed collection is completion-order independent: when the completed
(index, result) pairs are any permutation of the enumerated row list, reading
them back by input position restores exactly the input-order rows. -/
theorem gather_perm {ρ : Type} (rows : List ρ) (completed : List (ℕ × ρ))
    (h : completed.Perm rows.enum) :
    gatherByIndex rows.length completed = rows.map some := by
  apply List.ext_getElem
  · simp [gatherByIndex]
  · intro i h1 h2
    have hi : i < rows.length := by simpa using h2
    simp only [gatherByIndex, List.getElem_map, List.getElem_range]
    have hmem : (i, rows[i]) ∈ completed :=
      h.mem_iff.mpr (List.mk_mem_enum_iff_getElem?.mpr (List.getElem?_eq_getElem hi))
    cases hf : completed.find? (fun pr => pr.1 == i) with
    | none =>
      have hnone := List.find?_eq_none.mp hf _ hmem
      simp at hnone
    | some pr =>
      obtain ⟨a, b⟩ := pr
      have ha : a = i := by
        have := List.find?_some hf
        simpa using this
      subst ha
      have h2 : (a, b) ∈ rows.enum := h.mem_iff.mp (List.mem_of_find?_eq_some hf)
      have h3 : rows[a]? = some b := List.mk_mem_enum_iff_getElem?.mp h2
      rw [List.getElem?_eq_getElem hi] at h3
      simp [Option.some_inj.mp h3]

/-- Claim C4: the batch step collects the per-ticker pipeline rows by input
position, so each batch's output row order equals its input ticker order
whatever order the bounded worker pool completes the pipelines in. -/
theorem batch_rows_preserve_input_order (scraping : Bool) (batch : List String)
    (att0 att1 att2 : String → Attempt) (prov : String → Provider)
    (completed : List (ℕ × List RVal))
    (h : completed.Perm
      ((batch.map (fun c =>
        process_ticker_wrapper scraping c (att0 c) (att1 c) (att2 c) (prov c))).enum)) :
    gatherByIndex batch.length completed
      = (batch.map (fun c =>
          process_ticker_wrapper scraping c (att0 c) (att1 c) (att2 c) (prov c))).map some := by
  have := gather_perm
    (batch.map fun c => process_ticker_wrapper scraping c (att0 c) (att1 c) (att2 c) (prov c))
    completed h
  simpa [List.length_map] using this

/-- The row the pipeline produces with scraping off for a ticker whose
existence probe fails. -/
def errorRow : List RVal := RVal.s "ERROR/MISSING" :: List.replicate 18 (RVal.s "")

/-- Witness for C4: five tickers, with the worker on ticker #3 (index 2)
finishing last; the gathered batch is still in input order. -/
theorem batch_rows_preserve_input_order_inst :
    gatherByIndex 5 [(0, errorRow), (1, errorRow), (3, errorRow), (4, errorRow), (2, errorRow)]
      = ((["1", "2", "3", "4", "5"] : List String).map
          (fun c => process_ticker_wrapper false c Attempt.fail Attempt.fail Attempt.fail
            probeFailProvider)).map some :=
  batch_rows_preserve_input_order false ["1", "2", "3", "4", "5"]
    (fun _ => Attempt.fail) (fun _ => Attempt.fail) (fun _ => Attempt.fail)
    (fun _ => probeFailProvider)
    [(0, errorRow), (1, errorRow), (3, errorRow), (4, errorRow), (2, errorRow)]
    (by decide)

/-- A label the normalized-label dict resolves is in the index and normalizes
to the probed key. -/
theorem bs_idx_map_mem : ∀ {labels : List String} {q : List Char} {r : String},
    bs_idx_map labels q = some r → r ∈ labels ∧ normLabel r = q := by
  intro labels
  induction labels with
  | nil => intro q r h; simp [bs_idx_map] at h
  | cons k rest ih =>
    intro q r h
    rw [bs_idx_map] at h
    cases hr : bs_idx_map rest q with
    | some r2 =>
      rw [hr] at h
      obtain ⟨hm, hn⟩ := ih (hr.trans (congrArg some (Option.some_inj.mp h)))
      exact ⟨List.mem_cons_of_mem k hm, hn⟩
    | none =>
      rw [hr] at h
      by_cases hq : q = normLabel k
      · rw [if_pos hq] at h
        cases Option.some_inj.mp h
        exact ⟨List.mem_cons_self k rest, hq.symm⟩
      · rw [if_neg hq] at h
        exact absurd h (by simp)

/-- The normalized-label dict misses exactly the keys outside the normalized
index. -/
theorem bs_idx_map_eq_none_iff : ∀ {labels : List String} {q : List Char},
    bs_idx_map labels q = none ↔ q ∉ labels.map normLabel := by
  intro labels
  induction labels with
  | nil => intro q; simp [bs_idx_map]
  | cons k rest ih =>
    intro q
    rw [bs_idx_map]
    cases hr : bs_idx_map rest q with
    | some r2 =>
      have ⟨hm, hn⟩ := bs_idx_map_mem hr
      simp only [List.map_cons, List.mem_cons]
      constructor
      · intro h; exact absurd h (by simp)
      · intro h; exact absurd (Or.inr (List.mem_map.mpr ⟨r2, hm, hn⟩)) h
    | none =>
      simp only [List.map_cons, List.mem_cons]
      constructor
      · intro h hin
        rcases hin with hin | hin
        · rw [if_pos hin] at h
          exact absurd h (by simp)
        · exact (ih.mp hr) hin
      · intro h
        rw [if_neg (fun he => h (Or.inl he))]

/-- Under distinct normalized labels, looking a member pair's own label up in
the column finds exactly that pair's value. -/
theorem lookupCell_of_mem : ∀ {t : StmtCol},
    (t.map fun pr => normLabel pr.1).Nodup →
    ∀ {pr : String × Cell}, pr ∈ t → lookupCell t pr.1 = some pr.2 := by
  intro t
  induction t with
  | nil => intro _ pr h; simp at h
  | cons p0 rest ih =>
    intro hnd pr hm
    simp only [List.map_cons, List.nodup_cons] at hnd
    rw [lookupCell]
    rcases List.mem_cons.mp hm with h | h
    · rw [← h]
      simp
    · have hne : ¬p0.1 = pr.1 := by
        intro he
        exact hnd.1 (by rw [he]; exact List.mem_map.mpr ⟨pr, h, rfl⟩)
      rw [if_neg hne]
      exact ih hnd.2 h

/-- Claim C5: fuzzy field resolution is invariant under label normalization —
`get_val_bs` reads the column only through trimmed, case-folded labels.  Two
columns whose labels agree after normalization (values pointwise equal), with
no normalized-label collision, resolve every alias list to the same value. -/
theorem get_val_bs_norm_invariant (t₁ t₂ : StmtCol) (keys : List String)
    (hmap : t₁.map (fun pr => (normLabel pr.1, pr.2))
      = t₂.map (fun pr => (normLabel pr.1, pr.2)))
    (hnd : (t₁.map fun pr => normLabel pr.1).Nodup) :
    get_val_bs t₁ keys = get_val_bs t₂ keys := by
  have hkeys : t₂.map (fun pr => normLabel pr.1) = t₁.map (fun pr => normLabel pr.1) := by
    have h1 : (t₁.map (fun pr => (normLabel pr.1, pr.2))).map Prod.fst
        = t₁.map (fun pr => normLabel pr.1) := by
      rw [List.map_map]; rfl
    have h2 : (t₂.map (fun pr => (normLabel pr.1, pr.2))).map Prod.fst
        = t₂.map (fun pr => normLabel pr.1) := by
      rw [List.map_map]; rfl
    rw [← h1, ← h2, hmap]
  have hlabels : ∀ t : StmtCol, (t.map Prod.fst).map normLabel
      = t.map (fun pr => normLabel pr.1) := by
    intro t; rw [List.map_map]; rfl
  induction keys with
  | nil => rfl
  | cons k rest ih =>
    simp only [get_val_bs]
    by_cases hq : normLabel k ∈ t₁.map fun pr => normLabel pr.1
    · cases hm₁ : bs_idx_map (t₁.map Prod.fst) (normLabel k) with
      | none =>
        exact absurd (bs_idx_map_eq_none_iff.mp hm₁) (by rw [hlabels t₁]; simpa using hq)
      | some rk₁ =>
        cases hm₂ : bs_idx_map (t₂.map Prod.fst) (normLabel k) with
        | none =>
          have := bs_idx_map_eq_none_iff.mp hm₂
          rw [hlabels t₂, hkeys] at this
          exact absurd this (by simpa using hq)
        | some rk₂ =>
          obtain ⟨hrm₁, hrn₁⟩ := bs_idx_map_mem hm₁
          obtain ⟨hrm₂, hrn₂⟩ := bs_idx_map_mem hm₂
          obtain ⟨pr₁, hpr₁t, hpr₁e⟩ := List.mem_map.mp hrm₁
          obtain ⟨pr₂, hpr₂t, hpr₂e⟩ := List.mem_map.mp hrm₂
          have hnd₂ : (t₂.map fun pr => normLabel pr.1).Nodup := by
            rw [hkeys]; exact hnd
          have hlook₁ : lookupCell t₁ rk₁ = some pr₁.2 := by
            rw [← hpr₁e]; exact lookupCell_of_mem hnd hpr₁t
          have hlook₂ : lookupCell t₂ rk₂ = some pr₂.2 := by
            rw [← hpr₂e]; exact lookupCell_of_mem hnd₂ hpr₂t
          have hv : pr₁.2 = pr₂.2 := by
            have hk₁ : (normLabel k, pr₁.2) ∈ t₁.map (fun pr => (normLabel pr.1, pr.2)) :=
              List.mem_map.mpr ⟨pr₁, hpr₁t, by rw [hpr₁e, hrn₁]⟩
            have hk₂ : (normLabel k, pr₂.2) ∈ t₁.map (fun pr => (normLabel pr.1, pr.2)) := by
              rw [hmap]
              exact List.mem_map.mpr ⟨pr₂, hpr₂t, by rw [hpr₂e, hrn₂]⟩
            refine nodup_keys_val_eq (t₁.map fun pr => (normLabel pr.1, pr.2)) ?_ hk₁ hk₂
            rw [List.map_map]
            exact hnd
          show (lookupCell t₁ rk₁).bind cellVal = (lookupCell t₂ rk₂).bind cellVal
          rw [hlook₁, hlook₂, hv]
    · have hn₁ : bs_idx_map (t₁.map Prod.fst) (normLabel k) = none := by
        rw [bs_idx_map_eq_none_iff, hlabels t₁]; exact hq
      have hn₂ : bs_idx_map (t₂.map Prod.fst) (normLabel k) = none := by
        rw [bs_idx_map_eq_none_iff, hlabels t₂, hkeys]; exact hq
      rw [hn₁, hn₂]
      exact ih

/-- Witness for C5 at the spec's §8 instance: a column labelled
" total current assets " (spurious whitespace, lower case) resolves the
current-assets alias list exactly as the canonically labelled column, to the
stored value. -/
theorem get_val_bs_norm_invariant_inst :
    get_val_bs [(" total current assets ", Cell.val 5)]
        ["Total Current Assets", "Current Assets"]
      = get_val_bs [("Total Current Assets", Cell.val 5)]
          ["Total Current Assets", "Current Assets"] ∧
    get_val_bs [("Total Current Assets", Cell.val 5)]
        ["Total Current Assets", "Current Assets"] = some 5 :=
  ⟨get_val_bs_norm_invariant _ _ _ (by decide) (by decide), rfl⟩
